import Mathlib

/-!
Verification of the STL-to-3MF conversion pipeline in
`src/hardware/nfc-sign/export_3mf.py`.

The embedding is a shallow one: coordinates are modelled as exact values
(integers) because the Python vertex map keys on exact tuple equality of
the decoded coordinates; the file-system and the STL reader are modelled
as an explicit environment supplying, per file name, whether the file
exists (`os.path.exists`) and the decoded triangle soup
(`mesh.Mesh.from_file(..).vectors`).
-/

/-- A 3D point, compared bit-for-bit exactly as the Python vertex map does
with `tuple(vertex)` dictionary keys. -/
abbrev Point3 := Int × Int × Int

/-- A raw (not yet deduplicated) triangle: three corner points. -/
abbrev RawTri := Point3 × Point3 × Point3

/-- An index triangle: three indices into a vertex table. -/
abbrev IdxTri := Nat × Nat × Nat

def origin : Point3 := (0, 0, 0)

/-- Index of the first occurrence of `a` in a list; on the lists built by
the conversion this is exactly the integer stored in the Python
dictionaries (`vertex_map[v]`, `color_map[color]`), since each dictionary
maps a key to the position at which it was first appended. -/
def firstIdx {α : Type} [DecidableEq α] (a : α) : List α → Nat
  | [] => 0
  | b :: bs => if b = a then 0 else firstIdx a bs + 1

/-- One vertex lookup-or-insert step of `stl_to_vertices_triangles`
(lines 46-50): `if v_tuple not in vertex_map: vertex_map[v_tuple] =
len(vertices); vertices.append(v_tuple)` followed by
`vertex_map[v_tuple]`. -/
def dedupStep (vs : List Point3) (v : Point3) : List Point3 × Nat :=
  if v ∈ vs then (vs, firstIdx v vs) else (vs ++ [v], vs.length)

/-- The inner `for vertex in triangle` loop (lines 44-50): threads the
vertex table through the three corners and returns the index triple. -/
def dedupTri (vs : List Point3) (t : RawTri) : List Point3 × IdxTri :=
  let r1 := dedupStep vs t.1
  let r2 := dedupStep r1.1 t.2.1
  let r3 := dedupStep r2.1 t.2.2
  (r3.1, (r1.2, r2.2, r3.2))

/-- The outer `for triangle in stl_mesh.vectors` loop (lines 43-51). -/
def dedupGo (vs : List Point3) : List RawTri → List Point3 × List IdxTri
  | [] => (vs, [])
  | t :: ts =>
    let r := dedupTri vs t
    let rest := dedupGo r.1 ts
    (rest.1, r.2 :: rest.2)

/-- `stl_to_vertices_triangles` (lines 35-53): converts a decoded
triangle soup into a deduplicated vertex table plus index triangles. -/
def stl_to_vertices_triangles (m : List RawTri) : List Point3 × List IdxTri :=
  dedupGo [] m

/-- Map one index triangle back through a vertex table. -/
def triFromTable (w : List Point3) (t : IdxTri) : RawTri :=
  (w.getD t.1 origin, w.getD t.2.1 origin, w.getD t.2.2 origin)

/-- Expand a deduplicated (vertex table, index triangles) pair back into a
raw triangle soup. -/
def expand (p : List Point3 × List IdxTri) : List RawTri :=
  p.2.map (triFromTable p.1)

theorem firstIdx_lt {α : Type} [DecidableEq α] {a : α} :
    ∀ {l : List α}, a ∈ l → firstIdx a l < l.length := by
  intro l
  induction l with
  | nil => intro h; cases h
  | cons b bs ih =>
    intro h
    by_cases hb : b = a
    · simp [firstIdx, hb]
    · have : a ∈ bs := by
        cases h with
        | head => exact absurd rfl hb
        | tail _ h => exact h
      simp only [firstIdx, hb, if_false, List.length_cons]
      exact Nat.succ_lt_succ (ih this)

theorem getD_firstIdx {α : Type} [DecidableEq α] (d : α) {a : α} :
    ∀ {l : List α}, a ∈ l → l.getD (firstIdx a l) d = a := by
  intro l
  induction l with
  | nil => intro h; cases h
  | cons b bs ih =>
    intro h
    by_cases hb : b = a
    · simp [firstIdx, hb]
    · have : a ∈ bs := by
        cases h with
        | head => exact absurd rfl hb
        | tail _ h => exact h
      simp only [firstIdx, hb, if_false, List.getD_cons_succ]
      exact ih this

theorem getD_append_lt {α : Type} (d : α) :
    ∀ (vs u : List α) (i : Nat), i < vs.length → (vs ++ u).getD i d = vs.getD i d := by
  intro vs
  induction vs with
  | nil => intro u i h; cases h
  | cons x xs ih =>
    intro u i h
    cases i with
    | zero => simp
    | succ j =>
      simp only [List.cons_append, List.getD_cons_succ]
      exact ih u j (Nat.lt_of_succ_lt_succ h)

theorem getD_append_len {α : Type} (d : α) :
    ∀ (vs : List α) (v : α), (vs ++ [v]).getD vs.length d = v := by
  intro vs
  induction vs with
  | nil => intro v; rfl
  | cons x xs ih => intro v; simp [ih v]

theorem ext_refl {α : Type} (a : List α) : ∃ u, a = a ++ u :=
  ⟨[], by simp⟩

theorem ext_trans {α : Type} {a b c : List α} (h1 : ∃ u, b = a ++ u) (h2 : ∃ u, c = b ++ u) :
    ∃ u, c = a ++ u := by
  obtain ⟨u1, rfl⟩ := h1
  obtain ⟨u2, rfl⟩ := h2
  exact ⟨u1 ++ u2, by rw [List.append_assoc]⟩

theorem ext_length {α : Type} {a b : List α} (h : ∃ u, b = a ++ u) : a.length ≤ b.length := by
  obtain ⟨u, rfl⟩ := h
  simp

theorem getD_ext {a w : List Point3} (h : ∃ u, w = a ++ u) {i : Nat} (hi : i < a.length) :
    w.getD i origin = a.getD i origin ∧ i < w.length := by
  obtain ⟨u, rfl⟩ := h
  exact ⟨getD_append_lt origin a u i hi, Nat.lt_of_lt_of_le hi (by simp)⟩

theorem dedupStep_ext (vs : List Point3) (v : Point3) : ∃ u, (dedupStep vs v).1 = vs ++ u := by
  by_cases h : v ∈ vs
  · exact ⟨[], by simp [dedupStep, h]⟩
  · exact ⟨[v], by simp [dedupStep, h]⟩

theorem dedupStep_len_le (vs : List Point3) (v : Point3) :
    (dedupStep vs v).1.length ≤ vs.length + 1 := by
  by_cases h : v ∈ vs <;> simp [dedupStep, h]

theorem dedupStep_nodup (vs : List Point3) (v : Point3) (hn : vs.Nodup) :
    (dedupStep vs v).1.Nodup := by
  by_cases h : v ∈ vs
  · simpa [dedupStep, h] using hn
  · simp [dedupStep, h, List.nodup_append, hn]

theorem dedupStep_idx (vs : List Point3) (v : Point3) :
    (dedupStep vs v).2 < (dedupStep vs v).1.length
      ∧ (dedupStep vs v).1.getD (dedupStep vs v).2 origin = v := by
  by_cases h : v ∈ vs
  · simp only [dedupStep, h, if_true]
    exact ⟨firstIdx_lt h, getD_firstIdx origin h⟩
  · simp only [dedupStep, h, if_false]
    exact ⟨by simp, getD_append_len origin vs v⟩

theorem dedupStep_sound (vs : List Point3) (v : Point3) (w : List Point3)
    (h : ∃ u, w = (dedupStep vs v).1 ++ u) :
    (dedupStep vs v).2 < w.length ∧ w.getD (dedupStep vs v).2 origin = v := by
  obtain ⟨h1, h2⟩ := dedupStep_idx vs v
  obtain ⟨hg, hl⟩ := getD_ext h h1
  exact ⟨hl, hg.trans h2⟩

theorem dedupTri_fst (vs : List Point3) (t : RawTri) :
    (dedupTri vs t).1 = (dedupStep (dedupStep (dedupStep vs t.1).1 t.2.1).1 t.2.2).1 :=
  rfl

theorem dedupTri_snd (vs : List Point3) (t : RawTri) :
    (dedupTri vs t).2 = ((dedupStep vs t.1).2,
      (dedupStep (dedupStep vs t.1).1 t.2.1).2,
      (dedupStep (dedupStep (dedupStep vs t.1).1 t.2.1).1 t.2.2).2) :=
  rfl

theorem dedupTri_ext (vs : List Point3) (t : RawTri) : ∃ u, (dedupTri vs t).1 = vs ++ u := by
  rw [dedupTri_fst]
  exact ext_trans (dedupStep_ext vs t.1)
    (ext_trans (dedupStep_ext (dedupStep vs t.1).1 t.2.1)
      (dedupStep_ext (dedupStep (dedupStep vs t.1).1 t.2.1).1 t.2.2))

theorem dedupTri_len_le (vs : List Point3) (t : RawTri) :
    (dedupTri vs t).1.length ≤ vs.length + 3 := by
  rw [dedupTri_fst]
  have h1 := dedupStep_len_le vs t.1
  have h2 := dedupStep_len_le (dedupStep vs t.1).1 t.2.1
  have h3 := dedupStep_len_le (dedupStep (dedupStep vs t.1).1 t.2.1).1 t.2.2
  omega

theorem dedupTri_nodup (vs : List Point3) (t : RawTri) (hn : vs.Nodup) :
    (dedupTri vs t).1.Nodup := by
  rw [dedupTri_fst]
  exact dedupStep_nodup _ _ (dedupStep_nodup _ _ (dedupStep_nodup _ _ hn))

theorem dedupTri_idx (vs : List Point3) (t : RawTri) (w : List Point3)
    (h : ∃ u, w = (dedupTri vs t).1 ++ u) :
    ((dedupTri vs t).2.1 < w.length ∧ w.getD (dedupTri vs t).2.1 origin = t.1)
      ∧ ((dedupTri vs t).2.2.1 < w.length ∧ w.getD (dedupTri vs t).2.2.1 origin = t.2.1)
      ∧ ((dedupTri vs t).2.2.2 < w.length ∧ w.getD (dedupTri vs t).2.2.2 origin = t.2.2) := by
  rw [dedupTri_fst] at h
  rw [dedupTri_snd]
  refine ⟨?_, ?_, ?_⟩
  · exact dedupStep_sound vs t.1 w
      (ext_trans (ext_trans (dedupStep_ext (dedupStep vs t.1).1 t.2.1)
        (dedupStep_ext (dedupStep (dedupStep vs t.1).1 t.2.1).1 t.2.2)) h)
  · exact dedupStep_sound (dedupStep vs t.1).1 t.2.1 w
      (ext_trans (dedupStep_ext (dedupStep (dedupStep vs t.1).1 t.2.1).1 t.2.2) h)
  · exact dedupStep_sound (dedupStep (dedupStep vs t.1).1 t.2.1).1 t.2.2 w h

theorem dedupGo_cons (vs : List Point3) (t : RawTri) (ts : List RawTri) :
    dedupGo vs (t :: ts) =
      ((dedupGo (dedupTri vs t).1 ts).1, (dedupTri vs t).2 :: (dedupGo (dedupTri vs t).1 ts).2) :=
  rfl

theorem dedupGo_spec (ts : List RawTri) : ∀ vs : List Point3,
    (∃ u, (dedupGo vs ts).1 = vs ++ u)
    ∧ (dedupGo vs ts).2.length = ts.length
    ∧ (dedupGo vs ts).1.length ≤ vs.length + 3 * ts.length
    ∧ (vs.Nodup → (dedupGo vs ts).1.Nodup)
    ∧ (∀ i ∈ (dedupGo vs ts).2,
        i.1 < (dedupGo vs ts).1.length ∧ i.2.1 < (dedupGo vs ts).1.length
          ∧ i.2.2 < (dedupGo vs ts).1.length)
    ∧ (dedupGo vs ts).2.map (triFromTable (dedupGo vs ts).1) = ts := by
  induction ts with
  | nil =>
    intro vs
    exact ⟨ext_refl vs, rfl, by simp [dedupGo], fun h => h, by simp [dedupGo], rfl⟩
  | cons t ts ih =>
    intro vs
    obtain ⟨ihext, ihlen, ihbound, ihnd, ihidx, ihrt⟩ := ih (dedupTri vs t).1
    have htri := dedupTri_idx vs t (dedupGo (dedupTri vs t).1 ts).1 ihext
    rw [dedupGo_cons]
    refine ⟨?_, ?_, ?_, ?_, ?_, ?_⟩
    · exact ext_trans (dedupTri_ext vs t) ihext
    · simp [ihlen]
    · have := dedupTri_len_le vs t
      simp only [List.length_cons] at ihbound ⊢
      omega
    · intro hn
      exact ihnd (dedupTri_nodup vs t hn)
    · intro i hi
      cases hi with
      | head => exact ⟨htri.1.1, htri.2.1.1, htri.2.2.1⟩
      | tail _ hmem => exact ihidx i hmem
    · simp only [List.map_cons, ihrt]
      have : triFromTable (dedupGo (dedupTri vs t).1 ts).1 (dedupTri vs t).2 = t := by
        simp only [triFromTable, htri.1.2, htri.2.1.2, htri.2.2.2]
      rw [this]

theorem expand_dedup (m : List RawTri) : expand (stl_to_vertices_triangles m) = m :=
  (dedupGo_spec m []).2.2.2.2.2

/-- One input part dictionary: `'file'` is mandatory (`part['file']`),
`'color'` and `'name'` are optional (`part.get(..)`). -/
structure MeshPart where
  file : String
  color : Option String
  name : Option String
deriving DecidableEq

/-- The environment the conversion runs against: `fileExists` models
`os.path.exists`, `readMesh` models decoding the STL file at a path into
its triangle soup (`mesh.Mesh.from_file(path).vectors`). -/
structure Env where
  fileExists : String → Bool
  readMesh : String → List RawTri

/-- Default color used by `part.get('color', '#808080')`. -/
def defaultColor : String := "#808080"

def colorOf (p : MeshPart) : String := p.color.getD defaultColor

/-- `os.path.basename` for POSIX paths. -/
def basename (s : String) : String := (s.splitOn "/").getLastD s

/-- One `register(color, name)` step of the material registry: the
insert-if-unseen of lines 84-89 combined with the index lookup
`color_map[color]` of line 102.  The registry is the ordered list of
`(name, displaycolor)` pairs appended to `basematerials`; a color's index
is its position in that list. -/
def registerStep (acc : List (String × String)) (name color : String) :
    List (String × String) × Nat :=
  if color ∈ acc.map Prod.snd then (acc, firstIdx color (acc.map Prod.snd))
  else (acc ++ [(name, color)], acc.length)

/-- The first pass of `create_3mf` (lines 80-89): registers the color of
EVERY supplied part, before any file-existence check is made.  The name
default `Color_<id>` mirrors `part.get('name', f..)` with the running
`color_id` counter, which equals the current registry length. -/
def registerColors : List MeshPart → List (String × String) → List (String × String)
  | [], acc => acc
  | p :: ps, acc =>
    registerColors ps (registerStep acc (p.name.getD ("Color_" ++ toString acc.length)) (colorOf p)).1

/-- `color_map.get(color, 0)` of line 102. -/
def colorLookup (mats : List (String × String)) (c : String) : Nat :=
  if c ∈ mats.map Prod.snd then firstIdx c (mats.map Prod.snd) else 0

/-- One emitted `object` element: identity, display name, material index
(`pindex`; the `pid` attribute is the constant "1"), vertex table and
triangle table. -/
structure Obj where
  id : Nat
  name : String
  pindex : Nat
  vertices : List Point3
  triangles : List IdxTri
deriving DecidableEq

/-- The second pass of `create_3mf` (lines 92-132): walks the parts in
order, skips a part whose file does not exist (with a warning, line 98),
and otherwise builds an object with the next identity (counter starts at
2) and appends that identity to the build-item list. -/
def buildObjects (env : Env) (mats : List (String × String)) :
    List MeshPart → Nat → List Obj × List Nat
  | [], _ => ([], [])
  | p :: ps, oid =>
    if env.fileExists p.file then
      let vt := stl_to_vertices_triangles (env.readMesh p.file)
      let rest := buildObjects env mats ps (oid + 1)
      (⟨oid, p.name.getD (basename p.file), colorLookup mats (colorOf p), vt.1, vt.2⟩ :: rest.1,
        oid :: rest.2)
    else buildObjects env mats ps oid

/-- The scene described by the emitted model document: the
`basematerials` collection (identity 1), the `object` resources and the
`build` item list. -/
structure Model3mf where
  materials : List (String × String)
  objects : List Obj
  buildItems : List Nat
deriving DecidableEq

def buildModel (env : Env) (parts : List MeshPart) : Model3mf :=
  let mats := registerColors parts []
  let ob := buildObjects env mats parts 2
  ⟨mats, ob.1, ob.2⟩

/-- Fixed six-decimal coordinate formatting (`f"{v:.6f}"`) for the
integer-valued coordinates of the model. -/
def fmtCoord (x : Int) : String := toString x ++ ".000000"

def renderVertex (v : Point3) : String :=
  "<vertex x=\"" ++ fmtCoord v.1 ++ "\" y=\"" ++ fmtCoord v.2.1
    ++ "\" z=\"" ++ fmtCoord v.2.2 ++ "\" />"

def renderTriangle (t : IdxTri) : String :=
  "<triangle v1=\"" ++ toString t.1 ++ "\" v2=\"" ++ toString t.2.1
    ++ "\" v3=\"" ++ toString t.2.2 ++ "\" />"

def renderBase (b : String × String) : String :=
  "<m:base name=\"" ++ b.1 ++ "\" displaycolor=\"" ++ b.2 ++ "\" />"

def renderObj (o : Obj) : String :=
  "<object id=\"" ++ toString o.id ++ "\" type=\"model\" name=\"" ++ o.name
    ++ "\" pid=\"1\" pindex=\"" ++ toString o.pindex ++ "\"><mesh><vertices>"
    ++ String.join (o.vertices.map renderVertex)
    ++ "</vertices><triangles>"
    ++ String.join (o.triangles.map renderTriangle)
    ++ "</triangles></mesh></object>"

def renderItem (n : Nat) : String := "<item objectid=\"" ++ toString n ++ "\" />"

/-- The model document body (pretty-printing whitespace is cosmetic and
not modelled; element and attribute structure is). -/
def renderModel (m : Model3mf) : String :=
  "<model unit=\"millimeter\" xmlns=\"http://schemas.microsoft.com/3dmanufacturing/core/2015/02\" xmlns:m=\"http://schemas.microsoft.com/3dmanufacturing/material/2015/02\"><resources><m:basematerials id=\"1\">"
    ++ String.join (m.materials.map renderBase)
    ++ "</m:basematerials>"
    ++ String.join (m.objects.map renderObj)
    ++ "</resources><build>"
    ++ String.join (m.buildItems.map renderItem)
    ++ "</build></model>"

/-- The XML declaration prepended on line 146. -/
def xmlDecl : String := "<?xml version=\"1.0\" encoding=\"UTF-8\"?>"

def contentTypesXml : String :=
  "<?xml version=\"1.0\" encoding=\"UTF-8\"?>\n<Types xmlns=\"http://schemas.openxmlformats.org/package/2006/content-types\">\n  <Default Extension=\"rels\" ContentType=\"application/vnd.openxmlformats-package.relationships+xml\"/>\n  <Default Extension=\"model\" ContentType=\"application/vnd.ms-package.3dmanufacturing-3dmodel+xml\"/>\n</Types>"

def relsXml : String :=
  "<?xml version=\"1.0\" encoding=\"UTF-8\"?>\n<Relationships xmlns=\"http://schemas.openxmlformats.org/package/2006/relationships\">\n  <Relationship Target=\"/3D/3dmodel.model\" Id=\"rel0\" Type=\"http://schemas.microsoft.com/3dmanufacturing/2013/01/3dmodel\"/>\n</Relationships>"

/-- The output ZIP archive, as the ordered list of (entry name, entry
content) pairs written on lines 148-165. -/
structure Package where
  entries : List (String × String)
deriving DecidableEq

def build3mf (parts : List MeshPart) (env : Env) : Package :=
  ⟨[("[Content_Types].xml", contentTypesXml),
    ("_rels/.rels", relsXml),
    ("3D/3dmodel.model", xmlDecl ++ "\n" ++ renderModel (buildModel env parts))]⟩

/-- `create_3mf` (lines 56-168).  A `none` result would model refusing to
write the output archive; the source reaches the `zipfile.ZipFile` write
unconditionally, for every parts list, so the body always returns
`some`. -/
def create_3mf (parts : List MeshPart) (env : Env) : Option Package :=
  some (build3mf parts env)

/-- The `__main__` CLI glue (lines 171-214): filters the hard-coded part
list down to those whose files exist, exits with status 1 and writes
nothing if none exist (modelled as `none`), and otherwise invokes
`create_3mf` on the surviving parts. -/
def mainRun (parts : List MeshPart) (env : Env) : Option Package :=
  let existing := parts.filter (fun p => env.fileExists p.file)
  if existing.isEmpty then none else create_3mf existing env

/-- The content of the `3D/3dmodel.model` entry of a package. -/
def modelDocOf (pkg : Package) : String := (pkg.entries.getD 2 ("", "")).2

/-- The first line of a string, as a character list. -/
def firstLineChars (s : String) : List Char := s.data.takeWhile (fun ch => ch != '\n')

/-- Identity sequence `[s, s+1, ..., s+k-1]`. -/
def idsFrom : Nat → Nat → List Nat
  | _, 0 => []
  | s, k + 1 => s :: idsFrom (s + 1) k

theorem firstIdx_append_self {α : Type} [DecidableEq α] {a : α} :
    ∀ {l : List α}, a ∉ l → firstIdx a (l ++ [a]) = l.length := by
  intro l
  induction l with
  | nil => intro _; simp [firstIdx]
  | cons b bs ih =>
    intro h
    have hb : b ≠ a := fun hba => h (hba ▸ List.mem_cons_self b bs)
    have hbs : a ∉ bs := fun hm => h (List.mem_cons_of_mem b hm)
    simp only [List.cons_append, firstIdx, hb, if_false, List.length_cons]
    exact congrArg (fun k => k + 1) (ih hbs)

theorem registerStep_mem (acc : List (String × String)) (n c : String) :
    c ∈ (registerStep acc n c).1.map Prod.snd := by
  by_cases h : c ∈ acc.map Prod.snd
  · simp only [registerStep, if_pos h]
    exact h
  · simp [registerStep, h]

theorem registerStep_mono (acc : List (String × String)) (n c x : String)
    (h : x ∈ acc.map Prod.snd) : x ∈ (registerStep acc n c).1.map Prod.snd := by
  by_cases hc : c ∈ acc.map Prod.snd
  · simp only [registerStep, if_pos hc]
    exact h
  · simp only [registerStep, if_neg hc, List.map_append, List.map_cons, List.map_nil]
    exact List.mem_append_left _ h

theorem registerColors_mono :
    ∀ (ps : List MeshPart) (acc : List (String × String)) (x : String),
      x ∈ acc.map Prod.snd → x ∈ (registerColors ps acc).map Prod.snd := by
  intro ps
  induction ps with
  | nil => intro acc x h; exact h
  | cons p ps ih =>
    intro acc x h
    exact ih _ x (registerStep_mono acc _ (colorOf p) x h)

theorem mem_registerColors :
    ∀ (ps : List MeshPart) (acc : List (String × String)) (p : MeshPart),
      p ∈ ps → colorOf p ∈ (registerColors ps acc).map Prod.snd := by
  intro ps
  induction ps with
  | nil => intro acc p h; cases h
  | cons q ps ih =>
    intro acc p h
    cases h with
    | head =>
      exact registerColors_mono ps _ (colorOf q)
        (registerStep_mem acc (q.name.getD ("Color_" ++ toString acc.length)) (colorOf q))
    | tail _ hm => exact ih _ p hm

theorem colorLookup_lt (mats : List (String × String)) (c : String)
    (h : c ∈ mats.map Prod.snd) : colorLookup mats c < mats.length := by
  have := firstIdx_lt h
  rw [List.length_map] at this
  simpa [colorLookup, h] using this

theorem registerStep_stable (acc : List (String × String)) (n1 n2 c : String) :
    registerStep (registerStep acc n1 c).1 n2 c
      = ((registerStep acc n1 c).1, (registerStep acc n1 c).2) := by
  by_cases h : c ∈ acc.map Prod.snd
  · simp [registerStep, h]
  · have hmem : c ∈ (acc ++ [(n1, c)]).map Prod.snd := by simp
    have hidx : firstIdx c (acc.map Prod.snd ++ [c]) = acc.length := by
      simpa [List.length_map] using firstIdx_append_self (l := acc.map Prod.snd) h
    simp [registerStep, h, hmem, hidx]

theorem buildObjects_spec (env : Env) (mats : List (String × String)) :
    ∀ (ps : List MeshPart) (oid : Nat),
      (buildObjects env mats ps oid).1.map Obj.id
          = idsFrom oid (ps.filter (fun p => env.fileExists p.file)).length
        ∧ (buildObjects env mats ps oid).2 = (buildObjects env mats ps oid).1.map Obj.id := by
  intro ps
  induction ps with
  | nil => intro oid; exact ⟨rfl, rfl⟩
  | cons p ps ih =>
    intro oid
    cases h : env.fileExists p.file with
    | true =>
      obtain ⟨ih1, ih2⟩ := ih (oid + 1)
      refine ⟨?_, ?_⟩
      · simp [buildObjects, h, List.filter_cons, idsFrom, ih1]
      · simp [buildObjects, h, ih2]
    | false =>
      obtain ⟨ih1, ih2⟩ := ih oid
      refine ⟨?_, ?_⟩
      · simp [buildObjects, h, List.filter_cons, ih1]
      · simp [buildObjects, h, ih2]

theorem buildObjects_mem (env : Env) (mats : List (String × String)) :
    ∀ (ps : List MeshPart) (oid : Nat) (obj : Obj), obj ∈ (buildObjects env mats ps oid).1 →
      ∃ p, p ∈ ps ∧ env.fileExists p.file = true
        ∧ obj.vertices = (stl_to_vertices_triangles (env.readMesh p.file)).1
        ∧ obj.triangles = (stl_to_vertices_triangles (env.readMesh p.file)).2
        ∧ obj.pindex = colorLookup mats (colorOf p) := by
  intro ps
  induction ps with
  | nil => intro oid obj h; cases h
  | cons p ps ih =>
    intro oid obj h
    cases hf : env.fileExists p.file with
    | true =>
      rw [buildObjects] at h
      simp only [hf, if_true] at h
      cases h with
      | head => exact ⟨p, List.mem_cons_self p ps, hf, rfl, rfl, rfl⟩
      | tail _ hm =>
        obtain ⟨q, hq, rest⟩ := ih (oid + 1) obj hm
        exact ⟨q, List.mem_cons_of_mem p hq, rest⟩
    | false =>
      rw [buildObjects] at h
      simp only [hf, if_false] at h
      obtain ⟨q, hq, rest⟩ := ih oid obj h
      exact ⟨q, List.mem_cons_of_mem p hq, rest⟩

/-- An environment in which no file exists. -/
def envNone : Env := ⟨fun _ => false, fun _ => []⟩

/-- A single demo triangle soup. -/
def demoMesh : List RawTri := [((0, 0, 0), (1, 0, 0), (0, 1, 0))]

/-- An environment in which every file exists and decodes to `demoMesh`. -/
def envDemo : Env := ⟨fun _ => true, fun _ => demoMesh⟩

def ghostPart : MeshPart := ⟨"ghost.stl", some "#FF0000", some "Ghost"⟩

def demoPart : MeshPart := ⟨"a.stl", some "#1A1A1A", some "A"⟩

def signTextPart : MeshPart := ⟨"sign_elements.stl", some "#1A1A1A", some "Sign Text"⟩

def standPart : MeshPart := ⟨"stand.stl", some "#1A1A1A", some "Stand"⟩

def partA : MeshPart := ⟨"a.stl", some "#F5F5F0", some "A"⟩

def partB : MeshPart := ⟨"b.stl", some "#1A1A1A", some "B"⟩

def partC : MeshPart := ⟨"c.stl", some "#1A1A1A", some "C"⟩

/-- An environment in which every file except `b.stl` exists. -/
def envSkipB : Env := ⟨fun s => s != "b.stl", fun _ => demoMesh⟩

/-- Two triangles sharing the edge (10,0,0)-(0,10,0): 4 distinct corner
points, 2 of them shared. -/
def tShared1 : RawTri := ((0, 0, 0), (10, 0, 0), (0, 10, 0))

def tShared2 : RawTri := ((10, 0, 0), (0, 10, 0), (10, 10, 0))

/-- The single object produced by converting `demoPart` under `envDemo`. -/
def demoObj : Obj := ⟨2, "A", 0, [(0, 0, 0), (1, 0, 0), (0, 1, 0)], [(0, 1, 2)]⟩

theorem takeWhile_append_stop (p : Char → Bool) (l2 : List Char) :
    ∀ l1 : List Char, (∀ ch ∈ l1, p ch = true) → ∀ x : Char, p x = false →
      (l1 ++ x :: l2).takeWhile p = l1 := by
  intro l1
  induction l1 with
  | nil => intro _ x hx; simp [List.takeWhile, hx]
  | cons a l ih =>
    intro h x hx
    have ha : p a = true := h a (List.mem_cons_self a l)
    simp only [List.cons_append, List.takeWhile, ha]
    exact congrArg (fun r => a :: r) (ih (fun ch hch => h ch (List.mem_cons_of_mem a hch)) x hx)

/-- Claim C1, counterexample to the claim as stated: `create_3mf` invoked
with zero parts, and with a part list whose only mesh source is absent,
still produces an output package (the write is not refused, and no
empty-input error exists on any path of the function). -/
theorem claim_C1_counterexample :
    (create_3mf [] envNone).isSome = true
      ∧ (create_3mf [ghostPart] envNone).isSome = true :=
  ⟨rfl, rfl⟩

/-- Claim C1, amended: when every supplied part's mesh source is absent
(which covers zero parts), the surrounding CLI glue refuses to run and
produces no output file, while `create_3mf` itself still writes a
package. -/
theorem claim_C1_empty_input (parts : List MeshPart) (env : Env)
    (h : ∀ p ∈ parts, env.fileExists p.file = false) :
    mainRun parts env = none ∧ (create_3mf parts env).isSome = true := by
  constructor
  · have hf : parts.filter (fun p => env.fileExists p.file) = [] :=
      List.filter_eq_nil_iff.mpr (fun p hp => by simp [h p hp])
    simp [mainRun, hf]
  · rfl

/-- Witness for `claim_C1_empty_input` at a concrete all-missing input. -/
theorem claim_C1_witness :
    (∀ p ∈ [ghostPart], envNone.fileExists p.file = false)
      ∧ (mainRun [ghostPart] envNone = none
          ∧ (create_3mf [ghostPart] envNone).isSome = true) :=
  ⟨by decide, claim_C1_empty_input [ghostPart] envNone (by decide)⟩

/-- Claim C2, counterexample to the claim as stated: a color carried
solely by a part whose mesh source is absent DOES appear in the material
registry and the emitted basematerials block, even though the part is
skipped and contributes no object. -/
theorem claim_C2_counterexample :
    (buildModel envNone [ghostPart]).materials = [("Ghost", "#FF0000")]
      ∧ colorOf ghostPart ∈ ((buildModel envNone [ghostPart]).materials.map Prod.snd)
      ∧ (buildModel envNone [ghostPart]).objects = [] := by
  decide

/-- Claim C2, amended: color registration is a first pass over ALL
supplied parts that never consults the file system, so the registry is
identical under any two environments and every supplied part's color
(including colors carried solely by skipped parts) appears in it. -/
theorem claim_C2_registration_ignores_location (parts : List MeshPart) (e1 e2 : Env) :
    (buildModel e1 parts).materials = (buildModel e2 parts).materials
      ∧ ∀ p ∈ parts, colorOf p ∈ ((buildModel e1 parts).materials.map Prod.snd) :=
  ⟨rfl, fun p hp => mem_registerColors parts [] p hp⟩

/-- Witness for `claim_C2_registration_ignores_location` at a concrete
skipped part. -/
theorem claim_C2_witness :
    ghostPart ∈ [ghostPart]
      ∧ colorOf ghostPart ∈ ((buildModel envNone [ghostPart]).materials.map Prod.snd) :=
  ⟨by decide,
    (claim_C2_registration_ignores_location [ghostPart] envNone envDemo).2 ghostPart (by decide)⟩

/-- Claim C3: object identities start at 2 and increase by one per
surviving part in input order, the build list is exactly that identity
sequence, and on the concrete 3-part example with the 2nd source absent
there are exactly 2 objects with identities [2, 3] and a build list
[2, 3]. -/
theorem claim_C3_identities_and_build_list (parts : List MeshPart) (env : Env) :
    (buildModel env parts).objects.map Obj.id
        = idsFrom 2 (parts.filter (fun p => env.fileExists p.file)).length
      ∧ (buildModel env parts).buildItems = (buildModel env parts).objects.map Obj.id
      ∧ (buildModel envSkipB [partA, partB, partC]).objects.length = 2
      ∧ (buildModel envSkipB [partA, partB, partC]).objects.map Obj.id = [2, 3]
      ∧ (buildModel envSkipB [partA, partB, partC]).buildItems = [2, 3] := by
  obtain ⟨h1, h2⟩ := buildObjects_spec env (registerColors parts []) parts 2
  exact ⟨h1, h2, by decide, by decide, by decide⟩

/-- Claim C4: for every mesh of N triangles, deduplication produces
exactly N index triangles and a vertex table of at most 3N pairwise
distinct entries; the concrete two-triangle shared-edge mesh yields
exactly 4 vertex entries. -/
theorem claim_C4_dedup_shape (m : List RawTri) :
    (stl_to_vertices_triangles m).2.length = m.length
      ∧ (stl_to_vertices_triangles m).1.length ≤ 3 * m.length
      ∧ (stl_to_vertices_triangles m).1.Nodup
      ∧ (stl_to_vertices_triangles [tShared1, tShared2]).1.length = 4 := by
  obtain ⟨_, hlen, hbound, hnd, _, _⟩ := dedupGo_spec m []
  exact ⟨hlen, by simpa using hbound, hnd List.nodup_nil, by decide⟩

/-- Claim C5: registering an already-seen color leaves the registry
unchanged and returns the already-assigned index regardless of the new
name; an unseen color receives the next index (the current registry
length, starting at 0); two parts with color #1A1A1A and different names
yield exactly one entry, named after the first part. -/
theorem claim_C5_material_registry (acc : List (String × String)) (n1 n2 c : String) :
    registerStep (registerStep acc n1 c).1 n2 c
        = ((registerStep acc n1 c).1, (registerStep acc n1 c).2)
      ∧ (c ∉ acc.map Prod.snd → (registerStep acc n1 c).2 = acc.length)
      ∧ registerColors [signTextPart, standPart] [] = [("Sign Text", "#1A1A1A")] := by
  refine ⟨registerStep_stable acc n1 n2 c, ?_, by decide⟩
  intro h
  simp [registerStep, h]

/-- Witness for `claim_C5_material_registry` at the empty registry. -/
theorem claim_C5_witness :
    ("#1A1A1A" ∉ ([] : List (String × String)).map Prod.snd)
      ∧ (registerStep ([] : List (String × String)) "Sign Text" "#1A1A1A").2 = 0 :=
  ⟨by decide, (claim_C5_material_registry [] "Sign Text" "Stand" "#1A1A1A").2.1 (by decide)⟩

/-- Claim C6: in the emitted model, every triangle's three indices are
within range of its own object's vertex table, and every object's pindex
is within range of the basematerials block. -/
theorem claim_C6_index_ranges (parts : List MeshPart) (env : Env) (obj : Obj)
    (h : obj ∈ (buildModel env parts).objects) :
    (∀ t ∈ obj.triangles,
        t.1 < obj.vertices.length ∧ t.2.1 < obj.vertices.length
          ∧ t.2.2 < obj.vertices.length)
      ∧ obj.pindex < (buildModel env parts).materials.length := by
  obtain ⟨p, hp, hex, hv, ht, hpi⟩ :=
    buildObjects_mem env (registerColors parts []) parts 2 obj h
  constructor
  · intro t htm
    rw [ht] at htm
    rw [hv]
    exact (dedupGo_spec (env.readMesh p.file) []).2.2.2.2.1 t htm
  · rw [hpi]
    exact colorLookup_lt _ _ (mem_registerColors parts [] p hp)

/-- Witness for `claim_C6_index_ranges` on the concrete one-part demo
conversion. -/
theorem claim_C6_witness :
    demoObj ∈ (buildModel envDemo [demoPart]).objects
      ∧ ((∀ t ∈ demoObj.triangles,
          t.1 < demoObj.vertices.length ∧ t.2.1 < demoObj.vertices.length
            ∧ t.2.2 < demoObj.vertices.length)
        ∧ demoObj.pindex < (buildModel envDemo [demoPart]).materials.length) :=
  ⟨by decide, claim_C6_index_ranges [demoPart] envDemo demoObj (by decide)⟩

/-- Claim C7: the conversion is deterministic; two runs on identical part
lists and identical environments produce identical vertex tables,
material registries, object identities and output packages. -/
theorem claim_C7_deterministic (ps1 ps2 : List MeshPart) (e1 e2 : Env)
    (hp : ps1 = ps2) (he : e1 = e2) :
    (buildModel e1 ps1).objects.map Obj.vertices
        = (buildModel e2 ps2).objects.map Obj.vertices
      ∧ (buildModel e1 ps1).materials = (buildModel e2 ps2).materials
      ∧ (buildModel e1 ps1).objects.map Obj.id = (buildModel e2 ps2).objects.map Obj.id
      ∧ create_3mf ps1 e1 = create_3mf ps2 e2 := by
  subst hp
  subst he
  exact ⟨rfl, rfl, rfl, rfl⟩

/-- Witness for `claim_C7_deterministic` on the concrete demo input. -/
theorem claim_C7_witness :
    (buildModel envDemo [demoPart]).objects.map Obj.vertices
        = (buildModel envDemo [demoPart]).objects.map Obj.vertices
      ∧ (buildModel envDemo [demoPart]).materials = (buildModel envDemo [demoPart]).materials
      ∧ (buildModel envDemo [demoPart]).objects.map Obj.id
          = (buildModel envDemo [demoPart]).objects.map Obj.id
      ∧ create_3mf [demoPart] envDemo = create_3mf [demoPart] envDemo :=
  claim_C7_deterministic [demoPart] [demoPart] envDemo envDemo rfl rfl

/-- Claim C8: vertex deduplication is idempotent; expanding the
deduplicated output back into raw triangles and deduplicating again is a
no-op. -/
theorem claim_C8_dedup_idempotent (m : List RawTri) :
    stl_to_vertices_triangles (expand (stl_to_vertices_triangles m))
      = stl_to_vertices_triangles m := by
  rw [expand_dedup]

/-- Claim C9: every conversion's output archive contains exactly the
three entries [Content_Types].xml, _rels/.rels and 3D/3dmodel.model, and
the model document's first line is the UTF-8 XML declaration. -/
theorem claim_C9_package_entries (parts : List MeshPart) (env : Env) :
    create_3mf parts env = some (build3mf parts env)
      ∧ (build3mf parts env).entries.map Prod.fst
          = ["[Content_Types].xml", "_rels/.rels", "3D/3dmodel.model"]
      ∧ firstLineChars (modelDocOf (build3mf parts env)) = xmlDecl.data := by
  refine ⟨rfl, rfl, ?_⟩
  have hdoc : modelDocOf (build3mf parts env)
      = xmlDecl ++ "\n" ++ renderModel (buildModel env parts) := rfl
  rw [firstLineChars, hdoc, String.data_append, String.data_append]
  have hn : ("\n" : String).data = ['\n'] := rfl
  rw [hn, List.append_assoc]
  exact takeWhile_append_stop _ _ xmlDecl.data (by decide) '\n' (by decide)

/-- Claim C10: deduplication loses no geometry and preserves order;
mapping each output index triangle through the returned vertex table
reproduces exactly the input triangle sequence. -/
theorem claim_C10_dedup_roundtrip (m : List RawTri) :
    (stl_to_vertices_triangles m).2.map (triFromTable (stl_to_vertices_triangles m).1) = m :=
  expand_dedup m
